import Mathlib

/-!
Shallow embedding of the data-processing layer of `src/app.py` (Olympic medal
dashboard): `prepare_data`, the sidebar filter step of `main`, and the
aggregation functions `get_medal_summary`, `get_top_countries`,
`get_top_athletes`, `get_gold_proportion` and `calculate_improvement`.
Pandas dataframes are modelled as lists; float NaN/inf values arising from
division are modelled explicitly; a pandas exception is modelled as `none`.
-/

/-- A cell of a raw (pre-normalisation) table: either a number or a string. -/
inductive Cell where
  | int : ℤ → Cell
  | str : String → Cell
deriving DecidableEq

/-- A raw table as loaded from CSV: a header row of column names (duplicates
allowed, as in pandas) and data rows of cells. -/
structure RawTable where
  headers : List String
  rows : List (List Cell)
deriving DecidableEq

/-- The column rename performed by `rename(columns={'Total': 'Total_Medals'})`
on a single header: pandas renames every column whose name matches. -/
def renameTotalHdr (h : String) : String :=
  if h = "Total" then "Total_Medals" else h

/-- `prepare_data` (src/app.py lines 50-59) on a non-None dataframe: rename the
`Total` column to `Total_Medals` when `Total` is present and `Total_Medals` is
not; nothing else is changed (`df.rename` returns a new frame). -/
def prepareTable (t : RawTable) : RawTable :=
  if "Total" ∈ t.headers ∧ "Total_Medals" ∉ t.headers then
    { t with headers := t.headers.map renameTotalHdr }
  else t

/-- `prepare_data` including its `df is None` guard. -/
def prepare_data : Option RawTable → Option RawTable
  | none => none
  | some t => some (prepareTable t)

/-- One row of a table carrying the columns the aggregation functions read. -/
structure Row where
  Athlete : String
  Country : String
  Year : ℤ
  Sport : String
  Gold : ℤ
  Silver : ℤ
  Bronze : ℤ
  Total_Medals : ℤ
deriving DecidableEq

/-- A dataframe for the aggregation layer: an ordered sequence of rows. -/
abbrev Table := List Row

/-- Read a cell as an integer. -/
def cellInt : Cell → Option ℤ
  | .int z => some z
  | .str _ => none

/-- Read a cell as a string. -/
def cellStr : Cell → Option String
  | .str s => some s
  | .int _ => none

/-- Position of a named column in a raw table (first match, as `df[name]`
selects by label). -/
def colIdx (t : RawTable) (name : String) : Option ℕ :=
  t.headers.findIdx? (· == name)

/-- Cell of a raw row at an optional column position. -/
def readCol (cells : List Cell) (i : Option ℕ) : Option Cell :=
  i.bind cells.get?

/-- Interpret one raw row against the canonical schema; `none` when a column is
absent or a cell has the wrong shape. -/
def readRow (t : RawTable) (cells : List Cell) : Option Row := do
  let a ← readCol cells (colIdx t "Athlete") >>= cellStr
  let c ← readCol cells (colIdx t "Country") >>= cellStr
  let y ← readCol cells (colIdx t "Year") >>= cellInt
  let s ← readCol cells (colIdx t "Sport") >>= cellStr
  let g ← readCol cells (colIdx t "Gold") >>= cellInt
  let sv ← readCol cells (colIdx t "Silver") >>= cellInt
  let b ← readCol cells (colIdx t "Bronze") >>= cellInt
  let tm ← readCol cells (colIdx t "Total_Medals") >>= cellInt
  some { Athlete := a, Country := c, Year := y, Sport := s,
         Gold := g, Silver := sv, Bronze := b, Total_Medals := tm }

/-- Interpret a raw table as a typed `Table` (the bridge from `prepare_data`'s
output to the aggregation functions' input). -/
def readTable (t : RawTable) : Option Table :=
  t.rows.mapM (readRow t)

/-- The six fields returned by `get_medal_summary`. -/
structure Summary where
  total_medals : ℤ
  total_gold : ℤ
  total_silver : ℤ
  total_bronze : ℤ
  total_athletes : ℕ
  total_countries : ℕ
deriving DecidableEq

/-- `get_medal_summary` (src/app.py lines 61-77): column sums and distinct
counts (`nunique`). -/
def get_medal_summary (df : Table) : Summary :=
  { total_medals := (df.map (·.Total_Medals)).sum
    total_gold := (df.map (·.Gold)).sum
    total_silver := (df.map (·.Silver)).sum
    total_bronze := (df.map (·.Bronze)).sum
    total_athletes := (df.map (·.Athlete)).dedup.length
    total_countries := (df.map (·.Country)).dedup.length }

/-- Default string used only for the `first` aggregate of an empty group, which
never occurs for a key taken from the table itself. -/
def emptyStr : String := ""

/-- String comparison used when pandas sorts group keys (lexicographic by code
point, ascending). -/
def strLeB (a b : String) : Bool :=
  match compare a b with
  | .gt => false
  | _ => true

/-- Sort relation for group keys. -/
def strKeyLe (a b : String) : Prop := strLeB a b = true

instance : DecidableRel strKeyLe := fun _ _ => Bool.decEq _ _

/-- Descending comparison on (key, summed value) pairs, as
`sort_values(ascending=False)` orders them. -/
def valGe (a b : String × ℤ) : Prop := b.2 ≤ a.2

instance : DecidableRel valGe := fun _ _ => Int.decLe _ _

instance : IsTotal (String × ℤ) valGe := ⟨fun a b => le_total b.2 a.2⟩

instance : IsTrans (String × ℤ) valGe := ⟨fun _ _ _ h1 h2 => le_trans h2 h1⟩

/-- Distinct `Country` keys in the order `groupby('Country')` (sort=True, the
default) produces them. -/
def countryKeys (df : Table) : List String :=
  List.insertionSort strKeyLe (df.map (·.Country)).dedup

/-- Summed `Total_Medals` of one country's group. -/
def sumTM (df : Table) (c : String) : ℤ :=
  ((df.filter fun r => r.Country == c).map (·.Total_Medals)).sum

/-- Summed `Gold` of one country's group. -/
def sumGold (df : Table) (c : String) : ℤ :=
  ((df.filter fun r => r.Country == c).map (·.Gold)).sum

/-- `get_top_countries` (src/app.py lines 79-81): group by `Country`, sum
`Total_Medals`, sort descending, `head(n)`. -/
def get_top_countries (df : Table) (n : ℕ) : List (String × ℤ) :=
  List.take n (List.insertionSort valGe ((countryKeys df).map fun c => (c, sumTM df c)))

/-- The filter step of `main` (src/app.py lines 161-165): the year filter is
applied unconditionally; the country and sport filters are applied only when
their selection list is non-empty (Python truthiness of a list). -/
def applyFilters (df : Table) (selYears : List ℤ) (selCountries selSports : List String) : Table :=
  let f1 := df.filter fun r => selYears.contains r.Year
  let f2 := if selCountries.isEmpty then f1 else f1.filter fun r => selCountries.contains r.Country
  let f3 := if selSports.isEmpty then f2 else f2.filter fun r => selSports.contains r.Sport
  f3

/-- One row of `get_top_athletes`' result. -/
structure AthRow where
  Athlete : String
  Total_Medals : ℤ
  Gold : ℤ
  Silver : ℤ
  Bronze : ℤ
  Country : String
  Sport : String
deriving DecidableEq

/-- Distinct `Athlete` keys in `groupby('Athlete')` order. -/
def athleteKeys (df : Table) : List String :=
  List.insertionSort strKeyLe (df.map (·.Athlete)).dedup

/-- The aggregate row `agg({'Total_Medals': 'sum', ..., 'Country': 'first',
'Sport': 'first'})` of one athlete's group; `first` takes the group's first row
in input order. -/
def aggAthlete (df : Table) (a : String) : AthRow :=
  let g := df.filter fun r => r.Athlete == a
  { Athlete := a
    Total_Medals := (g.map (·.Total_Medals)).sum
    Gold := (g.map (·.Gold)).sum
    Silver := (g.map (·.Silver)).sum
    Bronze := (g.map (·.Bronze)).sum
    Country := (g.map (·.Country)).headD emptyStr
    Sport := (g.map (·.Sport)).headD emptyStr }

/-- Descending comparison on aggregated athlete rows (`sort_values('Total_Medals',
ascending=False)`). -/
def athGe (a b : AthRow) : Prop := b.Total_Medals ≤ a.Total_Medals

instance : DecidableRel athGe := fun _ _ => Int.decLe _ _

/-- `get_top_athletes` (src/app.py lines 83-92). -/
def get_top_athletes (df : Table) (n : ℕ) : List AthRow :=
  List.take n (List.insertionSort athGe ((athleteKeys df).map (aggAthlete df)))

/-- Result of the pandas float division of two integer sums: `0/0` is NaN,
`x/0` with `x ≠ 0` is a signed infinity, otherwise a finite rational. -/
inductive DivResult where
  | nan : DivResult
  | posinf : DivResult
  | neginf : DivResult
  | fin : ℚ → DivResult
deriving DecidableEq

/-- Pandas elementwise division of integer series values. -/
def pandasDiv (a b : ℤ) : DivResult :=
  if b = 0 then
    if a = 0 then DivResult.nan else if 0 < a then DivResult.posinf else DivResult.neginf
  else DivResult.fin ((a : ℚ) / (b : ℚ))

/-- `sort_values(ascending=False)` comparison on division results: descending,
with NaN placed last (pandas default na_position). -/
def dvGeB : DivResult → DivResult → Bool
  | _, .nan => true
  | .nan, _ => false
  | .posinf, _ => true
  | _, .posinf => false
  | _, .neginf => true
  | .neginf, _ => false
  | .fin a, .fin b => decide (b ≤ a)

/-- Sort relation on (country, ratio) pairs. -/
def dvGe (a b : String × DivResult) : Prop := dvGeB a.2 b.2 = true

instance : DecidableRel dvGe := fun _ _ => Bool.decEq _ _

/-- `get_gold_proportion` (src/app.py lines 98-102): per-country
`sum(Gold) / sum(Total_Medals)`, sorted descending. -/
def get_gold_proportion (df : Table) : List (String × DivResult) :=
  List.insertionSort dvGe
    ((countryKeys df).map fun c => (c, pandasDiv (sumGold df c) (sumTM df c)))

/-- One row of the grouped (Country, Year) table. -/
structure CYRow where
  Country : String
  Year : ℤ
  Total_Medals : ℤ
deriving DecidableEq

/-- One row of the improvement table: the `Delta` column is a float column, so
a missing difference (first appearance of a country) is NaN, modelled `none`. -/
structure DRow where
  Country : String
  Year : ℤ
  Total_Medals : ℤ
  Delta : Option ℤ
deriving DecidableEq

/-- Ascending comparison on (Country, Year) keys. -/
def cyKeyLeB (a b : String × ℤ) : Bool :=
  match compare a.1 b.1 with
  | .lt => true
  | .gt => false
  | .eq => decide (a.2 ≤ b.2)

/-- Sort relation on (Country, Year) keys. -/
def cyKeyLe (a b : String × ℤ) : Prop := cyKeyLeB a b = true

instance : DecidableRel cyKeyLe := fun _ _ => Bool.decEq _ _

/-- `df.groupby(['Country', 'Year'], as_index=False)['Total_Medals'].sum()`:
one row per distinct (Country, Year) pair, keys sorted ascending (groupby's
default sort=True), totals summed over the pair's rows. -/
def groupCY (df : Table) : List CYRow :=
  (List.insertionSort cyKeyLe ((df.map fun r => (r.Country, r.Year)).dedup)).map
    fun p =>
      { Country := p.1, Year := p.2,
        Total_Medals :=
          ((df.filter fun r => r.Country == p.1 && r.Year == p.2).map (·.Total_Medals)).sum }

/-- `sort_values(['Country', 'Year'])` comparison on grouped rows. -/
def cyLe (a b : CYRow) : Prop := cyKeyLeB (a.Country, a.Year) (b.Country, b.Year) = true

instance : DecidableRel cyLe := fun _ _ => Bool.decEq _ _

/-- Tail of `groupby('Country')['Total_Medals'].diff()`: since the rows are
sorted by (Country, Year), the previous row of the same country is the
adjacent previous row; a country change starts a new group, whose first row
gets NaN (`none`). -/
def addDeltaAux (prev : CYRow) : List CYRow → List DRow
  | [] => []
  | x :: xs =>
      { Country := x.Country, Year := x.Year, Total_Medals := x.Total_Medals,
        Delta := if x.Country == prev.Country then some (x.Total_Medals - prev.Total_Medals)
                 else none } :: addDeltaAux x xs

/-- `country_year['Delta'] = country_year.groupby('Country')['Total_Medals'].diff()`. -/
def addDelta : List CYRow → List DRow
  | [] => []
  | x :: xs =>
      { Country := x.Country, Year := x.Year, Total_Medals := x.Total_Medals,
        Delta := none } :: addDeltaAux x xs

/-- `Series.idxmax` over one country group's (row, Delta) pairs after dropping
NaN deltas: the first row holding the maximal Delta; `none` when the group has
no non-NaN Delta, which is the case pandas fails on. -/
def maxDeltaRow : List (DRow × ℤ) → Option (DRow × ℤ)
  | [] => none
  | [x] => some x
  | x :: y :: xs =>
      match maxDeltaRow (y :: xs) with
      | none => some x
      | some m => if x.2 < m.2 then some m else some x

/-- Descending comparison on optional deltas, NaN last. -/
def dGeB (a b : Option ℤ) : Bool :=
  match a, b with
  | _, none => true
  | none, _ => false
  | some x, some y => decide (y ≤ x)

/-- `sort_values('Delta', ascending=False)` relation on improvement rows. -/
def dGe (a b : DRow) : Prop := dGeB a.Delta b.Delta = true

instance : DecidableRel dGe := fun _ _ => Bool.decEq _ _

/-- `calculate_improvement` (src/app.py lines 112-118). The selection
`country_year.loc[country_year.groupby('Country')['Delta'].idxmax()]` picks,
for each country in key order, the row of its maximal Delta; for a country
whose Delta values are all NaN (a country with a single distinct Year) pandas
raises instead of selecting a row, modelled by the whole computation returning
`none`. -/
def calculate_improvement (df : Table) : Option (List DRow) := do
  let country_year := List.insertionSort cyLe (groupCY df)
  let dl := addDelta country_year
  let countries := List.insertionSort strKeyLe ((dl.map (·.Country)).dedup)
  let picked ← countries.mapM fun c =>
    maxDeltaRow ((dl.filter fun r => r.Country == c).filterMap fun r =>
      r.Delta.map fun d => (r, d))
  some (List.insertionSort dGe (picked.map (·.1)))

/-- Convenience row constructor for concrete test tables. -/
def mkRow (a c : String) (y : ℤ) (s : String) (g sv b tm : ℤ) : Row :=
  { Athlete := a, Country := c, Year := y, Sport := s,
    Gold := g, Silver := sv, Bronze := b, Total_Medals := tm }

/-- The spec's improvement test vector: (Country, Year, Total_Medals) rows
(CountryA,2000,10), (CountryA,2004,15), (CountryA,2008,12), (CountryB,2000,5). -/
def c1Table : Table :=
  [ mkRow "a1" "CountryA" 2000 "S" 0 0 0 10
  , mkRow "a1" "CountryA" 2004 "S" 0 0 0 15
  , mkRow "a1" "CountryA" 2008 "S" 0 0 0 12
  , mkRow "a2" "CountryB" 2000 "S" 0 0 0 5 ]

/-- A raw table missing every required schema column. -/
def rawNoSchema : RawTable :=
  { headers := ["Medals", "Team"], rows := [[Cell.int 3, Cell.str "X"]] }

/-- The required columns of the spec's canonical schema. -/
def requiredCols : List String :=
  ["Athlete", "Country", "Year", "Sport", "Gold", "Silver", "Bronze"]

/-- A raw table whose `Total` column does not equal Gold+Silver+Bronze. -/
def rawMismatch : RawTable :=
  { headers := ["Athlete", "Country", "Year", "Sport", "Gold", "Silver", "Bronze", "Total"]
  , rows := [[Cell.str "a1", Cell.str "X", Cell.int 2000, Cell.str "Swim",
              Cell.int 1, Cell.int 0, Cell.int 0, Cell.int 100]] }

/-- The typed row `rawMismatch` denotes after `prepare_data`. -/
def mismatchRow : Row := mkRow "a1" "X" 2000 "Swim" 1 0 0 100

/-- A one-row table whose totals are consistent. -/
def dfGood : Table := [mkRow "a1" "X" 2000 "Swim" 1 2 3 6]

/-- A non-empty table for the filter counterexample. -/
def df4 : Table := [mkRow "a1" "X" 2000 "Swim" 1 0 0 1]

/-- A table where one athlete appears under two countries and sports. -/
def dfAth : Table :=
  [ mkRow "m" "US" 2000 "Swim" 1 0 0 1
  , mkRow "m" "FR" 2004 "Run" 2 0 0 2 ]

/-- The aggregate row of athlete `m` in `dfAth`. -/
def eAth : AthRow := aggAthlete dfAth "m"

/-- A table whose only country has zero total medals. -/
def dfZero : Table := [mkRow "a1" "X" 2000 "Swim" 0 0 0 0]

/-- A table whose only country has gold ratio one half. -/
def dfHalf : Table := [mkRow "a1" "X" 2000 "Swim" 1 0 0 2]

/-- A raw table with a `Total` column and no `Total_Medals` column. -/
def tTot : RawTable :=
  { headers := ["Total", "Gold"], rows := [[Cell.int 3, Cell.int 1]] }

/-! ## Helper lemmas -/

/-- The rename map never produces a header named `Total`. -/
theorem total_not_mem_map_rename (l : List String) : "Total" ∉ l.map renameTotalHdr := by
  intro hmem
  rcases List.mem_map.mp hmem with ⟨x, _, hx⟩
  by_cases hxT : x = "Total"
  · rw [renameTotalHdr, if_pos hxT] at hx
    exact absurd hx (by decide)
  · rw [renameTotalHdr, if_neg hxT] at hx
    exact hxT hx

/-- `find?` returns the head of `filter`. -/
theorem find_eq_head_filter {α : Type} (p : α → Bool) :
    ∀ l : List α, l.find? p = (l.filter p).head?
  | [] => rfl
  | x :: xs => by
      cases h : p x
      · have h1 : List.find? p (x :: xs) = List.find? p xs := by
          simp [List.find?, h]
        have h2 : List.filter p (x :: xs) = List.filter p xs := by
          simp [List.filter_cons, h]
        rw [h1, h2, find_eq_head_filter p xs]
      · have h1 : List.find? p (x :: xs) = some x := by
          simp [List.find?, h]
        have h2 : List.filter p (x :: xs) = x :: List.filter p xs := by
          simp [List.filter_cons, h]
        rw [h1, h2]
        rfl

/-! ## Claim theorems -/

/-- C1: on the spec's improvement test vector [(CountryA,2000,10),
(CountryA,2004,15), (CountryA,2008,12), (CountryB,2000,5)] the code does not
return the single row (CountryA, 2004, 15, Delta=5) with CountryB excluded:
CountryB has Delta values that are all NaN (one distinct year), so the
groupby-idxmax row selection fails and the whole computation errors,
modelled by `none`. -/
theorem calculate_improvement_spec_vector_fails :
    calculate_improvement c1Table = none := by decide

/-- C2 counterexample: a table accepted by `prepare_data` (with `Total` renamed
to `Total_Medals` verbatim, here 100 against 1 gold, 0 silver, 0 bronze) whose
summary violates total_medals = total_gold + total_silver + total_bronze. -/
theorem summary_total_not_recomputed :
    prepare_data (some rawMismatch) = some (prepareTable rawMismatch) ∧
    readTable (prepareTable rawMismatch) = some [mismatchRow] ∧
    (get_medal_summary [mismatchRow]).total_medals ≠
      (get_medal_summary [mismatchRow]).total_gold +
        (get_medal_summary [mismatchRow]).total_silver +
        (get_medal_summary [mismatchRow]).total_bronze :=
  ⟨rfl, by decide, by decide⟩

/-- C2 amended: `get_medal_summary` satisfies total_medals = total_gold +
total_silver + total_bronze for exactly those tables whose every row already
satisfies Total_Medals = Gold + Silver + Bronze; `prepare_data` does not
recompute `Total_Medals`, so the identity is not guaranteed for every prepared
table. -/
theorem summary_identity_of_rowwise_totals :
    ∀ df : Table, (∀ r ∈ df, r.Total_Medals = r.Gold + r.Silver + r.Bronze) →
      (get_medal_summary df).total_medals =
        (get_medal_summary df).total_gold + (get_medal_summary df).total_silver +
          (get_medal_summary df).total_bronze
  | [], _ => rfl
  | r :: rs, h => by
      have hr : r.Total_Medals = r.Gold + r.Silver + r.Bronze :=
        h r (List.mem_cons_self r rs)
      have ih := summary_identity_of_rowwise_totals rs fun x hx =>
        h x (List.mem_cons_of_mem r hx)
      simp only [get_medal_summary, List.map_cons, List.sum_cons] at ih ⊢
      omega

/-- C2 witness: the amended identity at a concrete consistent table. -/
theorem summary_identity_of_rowwise_totals_witness :
    (get_medal_summary dfGood).total_medals =
      (get_medal_summary dfGood).total_gold + (get_medal_summary dfGood).total_silver +
        (get_medal_summary dfGood).total_bronze :=
  summary_identity_of_rowwise_totals dfGood (by decide)

/-- C3 counterexample: a raw table with `Athlete` (in fact every required
column) absent is returned unchanged by `prepare_data`; no failure occurs. -/
theorem prepare_data_missing_columns_no_error :
    "Athlete" ∉ rawNoSchema.headers ∧
    prepare_data (some rawNoSchema) = some rawNoSchema :=
  ⟨by decide, rfl⟩

/-- C3 amended: `prepare_data` performs no schema validation and cannot fail:
even when a required column is absent it returns a table with the rows
unchanged, whose headers come from the input up to the Total rename. -/
theorem prepare_data_no_validation (t : RawTable)
    (_h : ∃ c ∈ requiredCols, c ∉ t.headers) :
    (prepareTable t).rows = t.rows ∧
    ∀ hd ∈ (prepareTable t).headers, hd ∈ t.headers ∨ hd = "Total_Medals" := by
  by_cases hc : "Total" ∈ t.headers ∧ "Total_Medals" ∉ t.headers
  · have hp : prepareTable t = { t with headers := t.headers.map renameTotalHdr } := by
      unfold prepareTable
      rw [if_pos hc]
    rw [hp]
    refine ⟨rfl, ?_⟩
    intro hd hmem
    rcases List.mem_map.mp hmem with ⟨x, hx, hrn⟩
    by_cases hxT : x = "Total"
    · right
      rw [← hrn, renameTotalHdr, if_pos hxT]
    · left
      rw [← hrn, renameTotalHdr, if_neg hxT]
      exact hx
  · have hp : prepareTable t = t := by
      unfold prepareTable
      rw [if_neg hc]
    rw [hp]
    exact ⟨rfl, fun hd hmem => Or.inl hmem⟩

/-- C3 witness: the amended statement applied to the concrete schemaless table. -/
theorem prepare_data_no_validation_witness :
    (prepareTable rawNoSchema).rows = rawNoSchema.rows :=
  (prepare_data_no_validation rawNoSchema ⟨"Athlete", by decide, by decide⟩).1

/-- C4 counterexample: with all three selection sets empty the filtered table
is empty, not equal to the non-empty input. -/
theorem empty_selections_not_passthrough :
    applyFilters df4 [] [] [] = [] ∧ df4 ≠ [] :=
  ⟨by decide, by decide⟩

/-- C4 amended: an empty selection means every row passes for the country and
sport dimensions only; the year filter is applied unconditionally, so an empty
year selection yields the empty table whatever the other selections are. -/
theorem filter_empty_selection_semantics (df : Table) (selYears : List ℤ)
    (selCountries selSports : List String) :
    applyFilters df selYears [] [] = (df.filter fun r => selYears.contains r.Year) ∧
    applyFilters df [] selCountries selSports = [] := by
  constructor
  · rfl
  · have h1 : (df.filter fun r => List.contains ([] : List ℤ) r.Year) = [] :=
      List.filter_eq_nil_iff.mpr fun a _ h => nomatch h
    cases selCountries <;> cases selSports <;> simp [applyFilters, h1]

/-- C5 counterexample: `get_gold_proportion` emits an entry (with NaN value)
for a country whose summed Total_Medals is 0. -/
theorem gold_proportion_emits_zero_total :
    sumTM dfZero "X" = 0 ∧ ("X", DivResult.nan) ∈ get_gold_proportion dfZero :=
  ⟨by decide, by decide⟩

/-- C5 amended: every emitted entry is the pandas quotient of the country's
summed Gold by its summed Total_Medals: a zero-total country is emitted with a
non-finite value (NaN or a signed infinity) rather than excluded; a country
with nonzero total gets the finite ratio, which lies in [0,1] whenever
0 ≤ sum(Gold) ≤ sum(Total_Medals). -/
theorem gold_proportion_entry_shape (df : Table) (c : String) (v : DivResult)
    (hm : (c, v) ∈ get_gold_proportion df) :
    (sumTM df c = 0 → v = DivResult.nan ∨ v = DivResult.posinf ∨ v = DivResult.neginf) ∧
    (sumTM df c ≠ 0 → v = DivResult.fin ((sumGold df c : ℚ) / (sumTM df c : ℚ))) ∧
    (0 ≤ sumGold df c → sumGold df c ≤ sumTM df c → sumTM df c ≠ 0 →
      0 ≤ ((sumGold df c : ℚ) / (sumTM df c : ℚ)) ∧
        ((sumGold df c : ℚ) / (sumTM df c : ℚ)) ≤ 1) := by
  have h1 : (c, v) ∈ (countryKeys df).map fun k => (k, pandasDiv (sumGold df k) (sumTM df k)) :=
    ((List.perm_insertionSort dvGe _).mem_iff).mp hm
  rcases List.mem_map.mp h1 with ⟨c', _, hpair⟩
  have hcc : c' = c := congrArg Prod.fst hpair
  have hv : v = pandasDiv (sumGold df c) (sumTM df c) := by
    rw [← hcc]
    exact (congrArg Prod.snd hpair).symm
  refine ⟨?_, ?_, ?_⟩
  · intro h0
    rw [hv]
    unfold pandasDiv
    rw [if_pos h0]
    by_cases ha : sumGold df c = 0
    · rw [if_pos ha]
      exact Or.inl rfl
    · rw [if_neg ha]
      by_cases hp : 0 < sumGold df c
      · rw [if_pos hp]
        exact Or.inr (Or.inl rfl)
      · rw [if_neg hp]
        exact Or.inr (Or.inr rfl)
  · intro h0
    rw [hv]
    unfold pandasDiv
    rw [if_neg h0]
  · intro hg hgt h0
    have htz : 0 < sumTM df c := lt_of_le_of_ne (le_trans hg hgt) (Ne.symm h0)
    have ht : (0 : ℚ) < (sumTM df c : ℚ) := by exact_mod_cast htz
    constructor
    · apply div_nonneg _ (le_of_lt ht)
      exact_mod_cast hg
    · rw [div_le_one ht]
      exact_mod_cast hgt

/-- C5 witness: the amended statement at a country with gold ratio one half. -/
theorem gold_proportion_entry_shape_witness :
    0 ≤ ((sumGold dfHalf "X" : ℚ) / (sumTM dfHalf "X" : ℚ)) ∧
      ((sumGold dfHalf "X" : ℚ) / (sumTM dfHalf "X" : ℚ)) ≤ 1 :=
  (gold_proportion_entry_shape dfHalf "X"
      (pandasDiv (sumGold dfHalf "X") (sumTM dfHalf "X"))
      (List.mem_cons_self _ _)).2.2 (by decide) (by decide) (by decide)

/-- C6: every entry of `get_top_athletes` carries the Country and Sport of the
first row of that athlete in input order (the row `find?` returns), and its
four medal figures are the sums over all of the athlete's rows. -/
theorem top_athletes_first_seen (df : Table) (n : ℕ) (e : AthRow)
    (he : e ∈ get_top_athletes df n) :
    (∃ r, df.find? (fun x => x.Athlete == e.Athlete) = some r ∧
       e.Country = r.Country ∧ e.Sport = r.Sport) ∧
    e.Total_Medals = ((df.filter fun x => x.Athlete == e.Athlete).map (·.Total_Medals)).sum ∧
    e.Gold = ((df.filter fun x => x.Athlete == e.Athlete).map (·.Gold)).sum ∧
    e.Silver = ((df.filter fun x => x.Athlete == e.Athlete).map (·.Silver)).sum ∧
    e.Bronze = ((df.filter fun x => x.Athlete == e.Athlete).map (·.Bronze)).sum := by
  have h1 : e ∈ List.insertionSort athGe ((athleteKeys df).map (aggAthlete df)) :=
    List.Sublist.mem he (List.take_sublist n _)
  have h2 : e ∈ (athleteKeys df).map (aggAthlete df) :=
    ((List.perm_insertionSort athGe _).mem_iff).mp h1
  rcases List.mem_map.mp h2 with ⟨a, ha, hagg⟩
  have eA : e.Athlete = a := by
    rw [← hagg]
    rfl
  have haMem : a ∈ df.map (·.Athlete) :=
    List.mem_dedup.mp (((List.perm_insertionSort strKeyLe _).mem_iff).mp ha)
  rcases List.mem_map.mp haMem with ⟨r0, hr0, hr0a⟩
  have hg : r0 ∈ df.filter (fun r => r.Athlete == a) :=
    List.mem_filter.mpr ⟨hr0, beq_iff_eq.mpr hr0a⟩
  have hne : df.filter (fun r => r.Athlete == a) ≠ [] := by
    intro hnil
    rw [hnil] at hg
    exact absurd hg (List.not_mem_nil r0)
  rcases List.exists_cons_of_ne_nil hne with ⟨r, rest, hcons⟩
  rw [eA, ← hagg]
  refine ⟨⟨r, ?_, ?_, ?_⟩, ?_, ?_, ?_, ?_⟩
  · rw [find_eq_head_filter, hcons]
    rfl
  · show ((df.filter fun x => x.Athlete == a).map (·.Country)).headD emptyStr = r.Country
    rw [hcons]
    rfl
  · show ((df.filter fun x => x.Athlete == a).map (·.Sport)).headD emptyStr = r.Sport
    rw [hcons]
    rfl
  · rfl
  · rfl
  · rfl
  · rfl

/-- C6 witness: the aggregate row of the athlete appearing twice in `dfAth` is
in the output and its Total_Medals is the sum over both rows. -/
theorem top_athletes_first_seen_witness :
    eAth.Total_Medals =
      ((dfAth.filter fun x => x.Athlete == eAth.Athlete).map (·.Total_Medals)).sum :=
  (top_athletes_first_seen dfAth 5 eAth (by decide)).2.1

/-- C7: `prepare_data` is idempotent: applying it twice yields the same result
as applying it once, on any input including None. -/
theorem prepare_data_idempotent (df : Option RawTable) :
    prepare_data (prepare_data df) = prepare_data df := by
  cases df with
  | none => rfl
  | some t =>
      show some (prepareTable (prepareTable t)) = some (prepareTable t)
      congr 1
      by_cases h : "Total" ∈ t.headers ∧ "Total_Medals" ∉ t.headers
      · have h1 : prepareTable t = { t with headers := t.headers.map renameTotalHdr } := by
          unfold prepareTable
          rw [if_pos h]
        rw [h1]
        unfold prepareTable
        rw [if_neg]
        intro hc
        exact total_not_mem_map_rename t.headers hc.1
      · have h1 : prepareTable t = t := by
          unfold prepareTable
          rw [if_neg h]
        rw [h1, h1]

/-- C8: on the empty table `get_medal_summary` returns all four sums 0 and both
distinct counts 0, and `get_top_countries` with n = 5 returns the empty
ranking; neither operation fails. -/
theorem empty_table_summary_and_top_countries :
    get_medal_summary ([] : Table) =
      { total_medals := 0, total_gold := 0, total_silver := 0, total_bronze := 0,
        total_athletes := 0, total_countries := 0 } ∧
    get_top_countries ([] : Table) 5 = [] :=
  ⟨rfl, rfl⟩

/-- C9: `get_top_countries` returns min(n, number of distinct Country values)
entries, with the summed Total_Medals values in non-increasing order. -/
theorem top_countries_length_and_monotone (df : Table) (n : ℕ) :
    (get_top_countries df n).length = min n (df.map (·.Country)).toFinset.card ∧
    List.Sorted (fun a b => b ≤ a) ((get_top_countries df n).map Prod.snd) := by
  constructor
  · rw [get_top_countries, List.length_take]
    congr 1
    rw [(List.perm_insertionSort valGe _).length_eq, List.length_map, countryKeys,
      (List.perm_insertionSort strKeyLe _).length_eq, List.card_toFinset]
  · rw [get_top_countries, List.map_take]
    exact List.Pairwise.sublist (List.take_sublist n _)
      ((List.sorted_insertionSort valGe _).map Prod.snd (fun a b h => h))

/-- C10: `prepare_data` returns a table with exactly the input's rows; its
headers are renamed by the Total map precisely when `Total` is present and
`Total_Medals` absent (in which case no `Total` column remains), and otherwise
are returned untouched. -/
theorem prepare_data_rename_only (t : RawTable) :
    (prepareTable t).rows = t.rows ∧
    (prepareTable t).headers =
      (if "Total" ∈ t.headers ∧ "Total_Medals" ∉ t.headers
        then t.headers.map renameTotalHdr else t.headers) ∧
    ("Total" ∈ t.headers →
      "Total" ∉ (prepareTable t).headers ∨ (prepareTable t).headers = t.headers) := by
  by_cases h : "Total" ∈ t.headers ∧ "Total_Medals" ∉ t.headers
  · have hp : prepareTable t = { t with headers := t.headers.map renameTotalHdr } := by
      unfold prepareTable
      rw [if_pos h]
    rw [hp, if_pos h]
    exact ⟨rfl, rfl, fun _ => Or.inl (total_not_mem_map_rename t.headers)⟩
  · have hp : prepareTable t = t := by
      unfold prepareTable
      rw [if_neg h]
    rw [hp, if_neg h]
    exact ⟨rfl, rfl, fun _ => Or.inr rfl⟩

/-- C10 witness: on a table with a `Total` column and no `Total_Medals` column,
the rename leaves no `Total` column behind. -/
theorem prepare_data_rename_only_witness :
    "Total" ∉ (prepareTable tTot).headers ∨ (prepareTable tTot).headers = tTot.headers :=
  (prepare_data_rename_only tTot).2.2 (by decide)
